import Mathlib

/-
Verification of the doorstop GUI session-state store (doorstop/gui/main.py
and the store/reducer/state/action modules it drives).

The store, reducer, State and Action modules are imported by
doorstop/gui/main.py (from doorstop.gui.store / reducer / state / action)
but their sources are not part of this tree; they are modelled here from
the design specification (spec.md sections 3, 4 and 7).  The view-layer
callbacks and observers of doorstop/gui/main.py, which are present in the
tree, are embedded directly from that source.
-/

set_option maxHeartbeats 1000000

namespace Doorstop

/-- Modelled from the spec (section 3, "Item"): an item of the document
hierarchy, carrying a unique identifier, free text, an external reference
string, the four boolean flags, a set of outgoing link identifiers and an
open mapping of extended attribute name to value.  (The hierarchical level
is omitted: it is only touched by structural edits, which bypass the store
per spec section 9.) -/
structure Item where
  uid : String
  text : String
  ref : String
  active : Bool
  derived : Bool
  normative : Bool
  heading : Bool
  links : Finset String
  extended : List (String × String)
deriving DecidableEq

/-- Modelled from the spec (glossary "Document"): an ordered collection of
items sharing a common identifier prefix (`pfx`; the Python attribute is a
reserved word in Lean). -/
structure Document where
  pfx : String
  items : List Item
deriving DecidableEq

/-- Modelled from the spec (section 2, "Document Hierarchy"): the loaded
project tree, a collection of documents. -/
structure Tree where
  documents : List Document
deriving DecidableEq

/-- All items of a list of documents, in document order. -/
def itemsOfDocs : List Document → List Item
  | [] => []
  | d :: ds => d.items ++ itemsOfDocs ds

/-- Modelled from the spec (section 6, `Tree.findItem`): exact-match lookup
of an item by identifier. -/
def Tree.findItem (t : Tree) (uid : String) : Option Item :=
  (itemsOfDocs t.documents).find? (fun it => it.uid == uid)

/-- Modelled from the spec (section 6, `Tree.findDocument`): exact-match
lookup of a document by its identifier; a missing identifier does not
resolve. -/
def Tree.findDocument (t : Tree) (pfx : Option String) : Option Document :=
  match pfx with
  | none => none
  | some p => t.documents.find? (fun d => d.pfx == p)

/-- Apply `f` to the item named `uid`, leave every other item alone. -/
def condUpd (uid : String) (f : Item → Item) (it : Item) : Item :=
  if it.uid == uid then f it else it

/-- Update the named item inside one document. -/
def Document.updItems (d : Document) (uid : String) (f : Item → Item) : Document :=
  { d with items := d.items.map (condUpd uid f) }

/-- Modelled from the spec (section 6, per-field item mutation): update the
item named `uid` everywhere in the tree. -/
def Tree.updItem (t : Tree) (uid : String) (f : Item → Item) : Tree :=
  { documents := t.documents.map (fun d => d.updItems uid f) }

/-- Modelled from the spec (section 3, "State"): the immutable session
snapshot.  Field names follow the accessors used by doorstop/gui/main.py
(`state.project_path`, `state.session_selected_item`, ...). -/
structure State where
  cwd : String
  project_path : Option String
  project_tree : Option Tree
  session_selected_document : Option String
  session_selected_item : List String
  session_selected_item_principal : Option String
  session_selected_link : Finset String
  session_link_inception : String
  session_extended_name : Option String
  session_pending_change : Bool
deriving DecidableEq

/-- Modelled from the spec (section 8 scenario, "start with empty State"):
the seed state, every field empty/absent/false. -/
def State.seed : State :=
  { cwd := ""
  , project_path := none
  , project_tree := none
  , session_selected_document := none
  , session_selected_item := []
  , session_selected_item_principal := none
  , session_selected_link := ∅
  , session_link_inception := ""
  , session_extended_name := none
  , session_pending_change := false }

/-- Modelled from the spec (section 7): the error kinds a dispatch can
report. -/
inductive Failure where
  | notFound (id : String)
  | parseError
  | ioFailure (id : String)
  | validationError (text : String)
deriving DecidableEq

/-- The four boolean item flags of `SetItemFlag`. -/
inductive FlagName where
  | active
  | derived
  | normative
  | heading
deriving DecidableEq

/-- Modelled from the spec (section 4.1): the closed set of actions. -/
inductive Action where
  | SetWorkingDirectory (path : String)
  | SetProjectPath (path : Option String)
  | LoadProject
  | SaveProject
  | CloseProject
  | SelectDocument (documentId : String)
  | SelectItems (ids : List String)
  | SelectLinks (toSelect toDeselect : Finset String)
  | SetLinkFilter (text : String)
  | SetExtendedAttributeName (name : String)
  | SetItemText (itemId : String) (text : String)
  | SetItemReference (itemId : String) (ref : String)
  | SetItemFlag (itemId : String) (flag : FlagName) (value : Bool)
  | SetExtendedAttributeValue (itemId : String) (name : Option String) (value : String)
  | AddLink (itemId : String) (targetText : String)
  | RemoveLinks (itemId : String) (targetIds : Finset String)

/-- The field-edit and link-edit actions (spec section 4.1, categories
"Item field edits" and "Link edits"). -/
def Action.isEdit : Action → Bool
  | .SetItemText _ _ => true
  | .SetItemReference _ _ => true
  | .SetItemFlag _ _ _ => true
  | .SetExtendedAttributeValue _ _ _ => true
  | .AddLink _ _ => true
  | .RemoveLinks _ _ => true
  | _ => false

/-- Modelled from the spec (sections 4.2 and 6): the outcomes of the bounded
external I/O a lifecycle action may perform and of link-target parsing —
`load` is what opening and parsing a project root yields, `saveFail` tells
which items fail to persist, `parseTarget` parses link-target text into an
identifier. -/
structure Env where
  load : String → Option Tree
  saveFail : String → Bool
  parseTarget : String → Option String

/-- Set one of the four boolean flags on an item. -/
def Item.setFlag (it : Item) (f : FlagName) (v : Bool) : Item :=
  match f with
  | .active => { it with active := v }
  | .derived => { it with derived := v }
  | .normative => { it with normative := v }
  | .heading => { it with heading := v }

/-- Set an extended attribute value (open schema assoc update). -/
def Item.setAttr (it : Item) (name : Option String) (v : String) : Item :=
  match name with
  | none => it
  | some k => { it with extended := (k, v) :: it.extended.filter (fun p => p.1 != k) }

/-- Modelled from the spec (sections 4.2 and 7): field-edit skeleton —
resolve `uid` in the project tree; if the tree is absent or the identifier
does not resolve, the state is unchanged and a not-found failure is
reported; otherwise mutate the resolved item and set the pending flag. -/
def editItem (s : State) (uid : String) (f : Item → Item) : State × List Failure :=
  match s.project_tree with
  | none => (s, [.notFound uid])
  | some t =>
    match t.findItem uid with
    | none => (s, [.notFound uid])
    | some _ =>
      ({ s with project_tree := some (t.updItem uid f)
              , session_pending_change := true }, [])

/-- Modelled from the spec (section 4.2): the reducer, a function of
`(State, Action)` whose bounded external I/O outcomes are supplied by
`env`; it returns the next state together with the captured failures of
this dispatch (spec section 7: failures never raise past the reducer
boundary). -/
def reduce (env : Env) (s : State) : Action → State × List Failure
  | .SetWorkingDirectory p => ({ s with cwd := p }, [])
  | .SetProjectPath p => ({ s with project_path := p }, [])
  | .LoadProject =>
    match s.project_path with
    | none => (s, [.parseError])
    | some p =>
      match env.load p with
      | none => (s, [.parseError])
      | some t =>
        ({ s with project_tree := some t
                , session_selected_document := none
                , session_selected_item := []
                , session_selected_item_principal := none
                , session_selected_link := ∅
                , session_pending_change := false }, [])
  | .SaveProject =>
    match s.project_tree with
    | none => (s, [])
    | some t =>
      let fails : List Failure :=
        ((itemsOfDocs t.documents).filter (fun it => env.saveFail it.uid)).map
          (fun it => .ioFailure it.uid)
      ({ s with session_pending_change :=
          if fails = [] then false else s.session_pending_change }, fails)
  | .CloseProject =>
    ({ s with project_tree := none
            , session_selected_document := none
            , session_selected_item := []
            , session_selected_item_principal := none
            , session_selected_link := ∅
            , session_link_inception := ""
            , session_extended_name := none
            , session_pending_change := false }, [])
  | .SelectDocument id => ({ s with session_selected_document := some id }, [])
  | .SelectItems ids =>
    ({ s with session_selected_item := ids
            , session_selected_item_principal := ids.head?
            , session_selected_link := ∅ }, [])
  | .SelectLinks toSel toDesel =>
    ({ s with session_selected_link := (s.session_selected_link ∪ toSel) \ toDesel }, [])
  | .SetLinkFilter txt => ({ s with session_link_inception := txt }, [])
  | .SetExtendedAttributeName n => ({ s with session_extended_name := some n }, [])
  | .SetItemText uid txt => editItem s uid (fun it => { it with text := txt })
  | .SetItemReference uid r => editItem s uid (fun it => { it with ref := r })
  | .SetItemFlag uid fl v => editItem s uid (fun it => it.setFlag fl v)
  | .SetExtendedAttributeValue uid n v => editItem s uid (fun it => it.setAttr n v)
  | .AddLink uid ttext =>
    match env.parseTarget ttext with
    | none => (s, [.validationError ttext])
    | some tgt =>
      match s.project_tree with
      | none => (s, [.notFound uid])
      | some t =>
        match t.findItem uid with
        | none => (s, [.notFound uid])
        | some _ =>
          match t.findItem tgt with
          | none => (s, [.notFound tgt])
          | some _ =>
            ({ s with project_tree :=
                  some (t.updItem uid (fun it => { it with links := insert tgt it.links }))
                    , session_pending_change := true }, [])
  | .RemoveLinks uid tgts =>
    match s.project_tree with
    | none => (s, [.notFound uid])
    | some t =>
      match t.findItem uid with
      | none => (s, [.notFound uid])
      | some _ =>
        ({ s with project_tree := some (t.updItem uid (fun it => { it with links := it.links \ tgts }))
                , session_selected_link := s.session_selected_link \ tgts
                , session_pending_change := true }, [])

/-- The state component of one dispatch. -/
def dispatchState (env : Env) (s : State) (a : Action) : State :=
  (reduce env s a).1

/-- The states reachable from the seed state by any sequence of dispatches
(with arbitrary external-I/O outcomes at each step). -/
inductive Reachable : State → Prop
  | seed : Reachable State.seed
  | step {s : State} (env : Env) (a : Action) : Reachable s → Reachable (dispatchState env s a)

/-- The link set of the item named `uid`, when it resolves. -/
def getLinks (s : State) (uid : String) : Option (Finset String) :=
  match s.project_tree with
  | none => none
  | some t => (t.findItem uid).map Item.links

/-- Modelled from the spec (section 4.3, "Store"): current state plus the
ordered observer registry.  Observers are read-only callbacks of the
post-dispatch state, producing an output of type `α`. -/
structure Store (α : Type) where
  state : State
  observers : List (State → α)

/-- Modelled from the spec (section 4.3): append a callback to the ordered
registry; no immediate notification. -/
def Store.add_observer {α : Type} (st : Store α) (o : State → α) : Store α :=
  { st with observers := st.observers ++ [o] }

/-- Modelled from the spec (section 4.3, `dispatch`): compute
`reduce(current, action)`, replace the current state unconditionally, then
invoke every registered observer in registration order on the final
post-dispatch state; the reducer's reported failures are returned alongside
the notification outputs. -/
def Store.dispatch {α : Type} (env : Env) (st : Store α) (a : Action) :
    Store α × List Failure × List α :=
  let r := reduce env st.state a
  ({ st with state := r.1 }, r.2, st.observers.map (fun o => o r.1))

/-
Embeddings of the view-layer callbacks of doorstop/gui/main.py (present in
the tree).  A callback either dispatches one action or does nothing; the
embedding returns the dispatched action's payload as an `Option`.
-/

/-- The payloads the item field-edit callbacks of doorstop/gui/main.py put
into the actions they dispatch: `Action_ChangeItemText`,
`Action_ChangeItemReference` and `Action_ChangeExtendedValue` receive the
item's uid, while `Action_ChangeItemActive` / `Derived` / `Normative` /
`Heading` receive the item object itself as resolved by the callback. -/
inductive GuiEditAction where
  | changeItemText (itemUid : String) (value : String)
  | changeItemReference (itemUid : String) (value : String)
  | changeItemActive (item : Item) (value : Bool)
  | changeItemDerived (item : Item) (value : Bool)
  | changeItemNormative (item : Item) (value : Bool)
  | changeItemHeading (item : Item) (value : Bool)
  | changeExtendedValue (itemUid : String) (name : Option String) (value : String)
deriving DecidableEq

/-- The resolved item reference carried inside a dispatched field-edit
action, when there is one. -/
def carriedItem : GuiEditAction → Option Item
  | .changeItemActive it _ => some it
  | .changeItemDerived it _ => some it
  | .changeItemNormative it _ => some it
  | .changeItemHeading it _ => some it
  | _ => none

/-- From doorstop/gui/main.py, `text_item_focusout` (lines 463-473): read
the principal item uid from the state; if present, dispatch
`Action_ChangeItemText(item_uid, value)`. -/
def text_item_focusout (s : State) (value : String) : Option GuiEditAction :=
  match s.session_selected_item_principal with
  | none => none
  | some uid => some (.changeItemText uid value)

/-- From doorstop/gui/main.py, `text_item_reference_focusout` (lines
475-486): as `text_item_focusout`, dispatching
`Action_ChangeItemReference(item_uid, value)`. -/
def text_item_reference_focusout (s : State) (value : String) : Option GuiEditAction :=
  match s.session_selected_item_principal with
  | none => none
  | some uid => some (.changeItemReference uid value)

/-- From doorstop/gui/main.py, `text_extendedvalue_focusout` (lines
488-499): dispatch `Action_ChangeExtendedValue(item_uid,
state.session_extended_name, value)` when a principal uid is present. -/
def text_extendedvalue_focusout (s : State) (value : String) : Option GuiEditAction :=
  match s.session_selected_item_principal with
  | none => none
  | some uid => some (.changeExtendedValue uid s.session_extended_name value)

/-- From doorstop/gui/main.py, `doChangeActive` (lines 527-536): resolve
the principal item in the project tree (a `DoorstopError` yields no item);
if an item was resolved, dispatch `Action_ChangeItemActive(item, value)` —
the resolved item object, not its uid. -/
def doChangeActive (s : State) (value : Bool) : Option GuiEditAction :=
  match s.project_tree, s.session_selected_item_principal with
  | some t, some uid =>
    match t.findItem uid with
    | some it => some (.changeItemActive it value)
    | none => none
  | _, _ => none

/-- From doorstop/gui/main.py, `doChangeDerived` (lines 554-563): as
`doChangeActive`, dispatching `Action_ChangeItemDerived(item, value)`. -/
def doChangeDerived (s : State) (value : Bool) : Option GuiEditAction :=
  match s.project_tree, s.session_selected_item_principal with
  | some t, some uid =>
    match t.findItem uid with
    | some it => some (.changeItemDerived it value)
    | none => none
  | _, _ => none

/-- From doorstop/gui/main.py, `doChangeNormative` (lines 582-591): as
`doChangeActive`, dispatching `Action_ChangeItemNormative(item, value)`. -/
def doChangeNormative (s : State) (value : Bool) : Option GuiEditAction :=
  match s.project_tree, s.session_selected_item_principal with
  | some t, some uid =>
    match t.findItem uid with
    | some it => some (.changeItemNormative it value)
    | none => none
  | _, _ => none

/-- From doorstop/gui/main.py, `doChangeHeading` (lines 609-618): as
`doChangeActive`, dispatching `Action_ChangeItemHeading(item, value)`. -/
def doChangeHeading (s : State) (value : Bool) : Option GuiEditAction :=
  match s.project_tree, s.session_selected_item_principal with
  | some t, some uid =>
    match t.findItem uid with
    | some it => some (.changeItemHeading it value)
    | none => none
  | _, _ => none

/-- How the document-outline refresh observer of doorstop/gui/main.py can
fail: an uncaught `DoorstopError` from `find_document`, or the
`assert False, uid` of the select-the-first-item branch. -/
inductive GuiFailure where
  | doorstopError
  | assertionError (uid : String)
deriving DecidableEq

/-- From doorstop/gui/main.py, `refresh_document_outline` (lines 381-423):
clear the outline widget, insert every item of
`project_tree.find_document(session_selected_document).items` (no items
when no tree is loaded; an unresolvable document identifier raises an
uncaught `DoorstopError`), then either restore the recorded selection
(when `session_selected_item` is non-empty) or enter the
"Select the first item" loop, whose body is `assert False, uid` — it
raises `AssertionError` on the first displayed item.  The tk widget
bookkeeping (open-state recording, parent levels, focus/see) has no
bearing on control flow and is elided. -/
def refresh_document_outline (s : State) : Except GuiFailure Unit :=
  let items? : Except GuiFailure (List Item) :=
    match s.project_tree with
    | none => .ok []
    | some t =>
      match t.findDocument s.session_selected_document with
      | none => .error .doorstopError
      | some d => .ok d.items
  match items? with
  | .error e => .error e
  | .ok items =>
    if s.session_selected_item.isEmpty then
      match items.head? with
      | some it => .error (.assertionError it.uid)
      | none => .ok ()
    else
      .ok ()

/-
Concrete fixtures used by witnesses and counterexamples.
-/

/-- A concrete item named "A" linking to nothing. -/
def itemA : Item :=
  { uid := "A", text := "a", ref := "", active := true, derived := false
  , normative := true, heading := false, links := ∅, extended := [] }

/-- A concrete item named "B". -/
def itemB : Item :=
  { uid := "B", text := "b", ref := "", active := true, derived := false
  , normative := true, heading := false, links := ∅, extended := [] }

/-- A concrete document holding `itemA` and `itemB`. -/
def doc0 : Document := { pfx := "REQ", items := [itemA, itemB] }

/-- A concrete project tree. -/
def tree0 : Tree := { documents := [doc0] }

/-- A concrete state with `tree0` loaded and item "A" selected. -/
def state0 : State :=
  { cwd := "/cwd"
  , project_path := some "/proj"
  , project_tree := some tree0
  , session_selected_document := some "REQ"
  , session_selected_item := ["A"]
  , session_selected_item_principal := some "A"
  , session_selected_link := ∅
  , session_link_inception := ""
  , session_extended_name := none
  , session_pending_change := false }

/-- An environment whose external I/O always fails and parses every
link-target text as itself. -/
def env0 : Env :=
  { load := fun _ => none
  , saveFail := fun _ => false
  , parseTarget := fun t => some t }

/-
Helper lemmas about tree lookup and update.
-/

theorem find_map_pres {g : Item → Item} {p : Item → Bool}
    (hp : ∀ it, p (g it) = p it) :
    ∀ l : List Item, (l.map g).find? p = (l.find? p).map g := by
  intro l
  induction l with
  | nil => rfl
  | cons a l ih =>
    by_cases h : p a
    · simp [List.find?, hp, h]
    · simp only [Bool.not_eq_true] at h
      simp [List.find?, hp, h, ih]

theorem itemsOfDocs_map (g : Item → Item) :
    ∀ ds : List Document,
      itemsOfDocs (ds.map (fun d => { d with items := d.items.map g })) =
        (itemsOfDocs ds).map g := by
  intro ds
  induction ds with
  | nil => rfl
  | cons d ds ih => simp [itemsOfDocs, ih]

theorem condUpd_uid {f : Item → Item} (hf : ∀ it, (f it).uid = it.uid)
    (uid : String) (it : Item) : (condUpd uid f it).uid = it.uid := by
  unfold condUpd
  by_cases h : it.uid == uid <;> simp [h, hf]

theorem findItem_updItem {f : Item → Item} (hf : ∀ it, (f it).uid = it.uid)
    (t : Tree) (uid j : String) :
    (t.updItem uid f).findItem j = (t.findItem j).map (condUpd uid f) := by
  unfold Tree.updItem Tree.findItem Document.updItems
  rw [itemsOfDocs_map]
  exact find_map_pres (fun it => by rw [condUpd_uid hf]) _

theorem condUpd_condUpd {f g : Item → Item} (hf : ∀ it, (f it).uid = it.uid)
    (uid : String) (it : Item) :
    condUpd uid g (condUpd uid f it) = condUpd uid (fun x => g (f x)) it := by
  unfold condUpd
  by_cases h : it.uid == uid
  · simp only [h, if_true]
    have : (f it).uid == uid := by rw [hf]; exact h
    simp [this]
  · simp [h]

theorem updItem_updItem {f g : Item → Item} (hf : ∀ it, (f it).uid = it.uid)
    (t : Tree) (uid : String) :
    (t.updItem uid f).updItem uid g = t.updItem uid (fun x => g (f x)) := by
  unfold Tree.updItem Document.updItems
  simp only [List.map_map, Tree.mk.injEq]
  apply List.map_congr_left
  intro d _
  simp only [Function.comp]
  congr 1
  simp only [List.map_map]
  apply List.map_congr_left
  intro it _
  exact condUpd_condUpd hf uid it

theorem findItem_uid {t : Tree} {uid : String} {it : Item}
    (h : t.findItem uid = some it) : it.uid == uid := by
  unfold Tree.findItem at h
  simpa using List.find?_some h

/-
The reachability invariant: the principal selected item is the head of the
selected-item sequence, and a closed project has no pending change.
-/

def Invar (s : State) : Prop :=
  s.session_selected_item_principal = s.session_selected_item.head? ∧
    (s.project_tree = none → s.session_pending_change = false)

theorem invar_seed : Invar State.seed := by
  constructor <;> simp [State.seed]

theorem invar_editItem {s : State} (h : Invar s) (uid : String) (f : Item → Item) :
    Invar (editItem s uid f).1 := by
  obtain ⟨h1, h2⟩ := h
  cases hpt : s.project_tree with
  | none => simp only [editItem, hpt]; exact ⟨h1, h2⟩
  | some t =>
    cases hfi : t.findItem uid with
    | none => simp only [editItem, hpt, hfi]; exact ⟨h1, h2⟩
    | some it => simp only [editItem, hpt, hfi]; exact ⟨h1, by simp⟩

theorem invar_step {s : State} (env : Env) (a : Action) (h : Invar s) :
    Invar (dispatchState env s a) := by
  obtain ⟨h1, h2⟩ := h
  unfold dispatchState
  cases a with
  | SetWorkingDirectory p => exact ⟨h1, h2⟩
  | SetProjectPath p => exact ⟨h1, h2⟩
  | LoadProject =>
    cases hpp : s.project_path with
    | none => simpa [reduce, hpp] using ⟨h1, h2⟩
    | some p =>
      cases hl : env.load p with
      | none => simpa [reduce, hpp, hl] using ⟨h1, h2⟩
      | some t => simp [reduce, hpp, hl, Invar]
  | SaveProject =>
    cases hpt : s.project_tree with
    | none => simpa [reduce, hpt] using ⟨h1, h2⟩
    | some t =>
      refine ⟨by simpa [reduce, hpt] using h1, ?_⟩
      simp [reduce, hpt]
  | CloseProject => simp [reduce, Invar]
  | SelectDocument id => simpa [reduce, Invar] using ⟨h1, h2⟩
  | SelectItems ids => simpa [reduce, Invar] using h2
  | SelectLinks a b => simpa [reduce, Invar] using ⟨h1, h2⟩
  | SetLinkFilter txt => simpa [reduce, Invar] using ⟨h1, h2⟩
  | SetExtendedAttributeName n => simpa [reduce, Invar] using ⟨h1, h2⟩
  | SetItemText uid txt => exact invar_editItem ⟨h1, h2⟩ uid _
  | SetItemReference uid r => exact invar_editItem ⟨h1, h2⟩ uid _
  | SetItemFlag uid fl v => exact invar_editItem ⟨h1, h2⟩ uid _
  | SetExtendedAttributeValue uid n v => exact invar_editItem ⟨h1, h2⟩ uid _
  | AddLink uid ttext =>
    cases hp : env.parseTarget ttext with
    | none => simpa [reduce, hp] using ⟨h1, h2⟩
    | some tgt =>
      cases hpt : s.project_tree with
      | none => simpa [reduce, hp, hpt] using ⟨h1, h2⟩
      | some t =>
        cases hfi : t.findItem uid with
        | none => simpa [reduce, hp, hpt, hfi] using ⟨h1, h2⟩
        | some it =>
          cases hft : t.findItem tgt with
          | none => simpa [reduce, hp, hpt, hfi, hft] using ⟨h1, h2⟩
          | some it2 =>
            refine ⟨by simpa [reduce, hp, hpt, hfi, hft] using h1, ?_⟩
            simp [reduce, hp, hpt, hfi, hft]
  | RemoveLinks uid tgts =>
    cases hpt : s.project_tree with
    | none => simpa [reduce, hpt] using ⟨h1, h2⟩
    | some t =>
      cases hfi : t.findItem uid with
      | none => simpa [reduce, hpt, hfi] using ⟨h1, h2⟩
      | some it =>
        refine ⟨by simpa [reduce, hpt, hfi] using h1, ?_⟩
        simp [reduce, hpt, hfi]

theorem reachable_invar {s : State} (h : Reachable s) : Invar s := by
  induction h with
  | seed => exact invar_seed
  | step env a _ ih => exact invar_step env a ih

/-- A failing field edit leaves the state untouched. -/
theorem editItem_fail {s : State} {uid : String} {f : Item → Item}
    (h : (editItem s uid f).2 ≠ []) : (editItem s uid f).1 = s := by
  cases hpt : s.project_tree with
  | none => simp [editItem, hpt]
  | some t =>
    cases hfi : t.findItem uid with
    | none => simp [editItem, hpt, hfi]
    | some it => simp [editItem, hpt, hfi] at h

/-- C1: for every action whose reduction fails (reports at least one
failure), the resulting state equals the prior state in every field — the
failure is captured in the dispatch result and no part of the transition is
applied. -/
theorem c1_atomicity_on_failure (env : Env) (s : State) (a : Action)
    (h : (reduce env s a).2 ≠ []) : (reduce env s a).1 = s := by
  cases a with
  | SetWorkingDirectory p => exact absurd rfl h
  | SetProjectPath p => exact absurd rfl h
  | LoadProject =>
    cases hpp : s.project_path with
    | none => simp [reduce, hpp]
    | some p =>
      cases hl : env.load p with
      | none => simp [reduce, hpp, hl]
      | some t => simp [reduce, hpp, hl] at h
  | SaveProject =>
    cases hpt : s.project_tree with
    | none => simp [reduce, hpt]
    | some t =>
      simp only [reduce, hpt] at h ⊢
      rw [if_neg h, ← hpt]
  | CloseProject => exact absurd rfl h
  | SelectDocument id => exact absurd rfl h
  | SelectItems ids => exact absurd rfl h
  | SelectLinks a b => exact absurd rfl h
  | SetLinkFilter txt => exact absurd rfl h
  | SetExtendedAttributeName n => exact absurd rfl h
  | SetItemText uid txt => exact editItem_fail h
  | SetItemReference uid r => exact editItem_fail h
  | SetItemFlag uid fl v => exact editItem_fail h
  | SetExtendedAttributeValue uid n v => exact editItem_fail h
  | AddLink uid ttext =>
    cases hp : env.parseTarget ttext with
    | none => simp [reduce, hp]
    | some tgt =>
      cases hpt : s.project_tree with
      | none => simp [reduce, hp, hpt]
      | some t =>
        cases hfi : t.findItem uid with
        | none => simp [reduce, hp, hpt, hfi]
        | some it =>
          cases hft : t.findItem tgt with
          | none => simp [reduce, hp, hpt, hfi, hft]
          | some it2 => simp [reduce, hp, hpt, hfi, hft] at h
  | RemoveLinks uid tgts =>
    cases hpt : s.project_tree with
    | none => simp [reduce, hpt]
    | some t =>
      cases hfi : t.findItem uid with
      | none => simp [reduce, hpt, hfi]
      | some it => simp [reduce, hpt, hfi] at h

/-- C1 witness: `SetItemText` on an identifier that does not resolve (no
project is loaded in the seed state) reports a failure and leaves the state
unchanged. -/
theorem c1_witness :
    (reduce env0 State.seed (.SetItemText "Z" "x")).2 ≠ []
    ∧ (reduce env0 State.seed (.SetItemText "Z" "x")).1 = State.seed :=
  ⟨by decide, c1_atomicity_on_failure env0 State.seed (.SetItemText "Z" "x") (by decide)⟩

/-- C4: `CloseProject`, from any state and with any external environment,
discards the project tree, resets every session field to its empty/absent
value regardless of the pending flag, and reports no failure; only `cwd`
and `project_path` survive. -/
theorem c4_close_project_resets (env : Env) (s : State) :
    (reduce env s .CloseProject).1 =
      { cwd := s.cwd
      , project_path := s.project_path
      , project_tree := none
      , session_selected_document := none
      , session_selected_item := []
      , session_selected_item_principal := none
      , session_selected_link := ∅
      , session_link_inception := ""
      , session_extended_name := none
      , session_pending_change := false }
    ∧ (reduce env s .CloseProject).2 = [] :=
  ⟨rfl, rfl⟩

/-- Folding any sequence of `SetLinkFilter` dispatches only rewrites the
filter text. -/
theorem setLinkFilter_foldl (env : Env) :
    ∀ (ts : List String) (s : State),
      ts.foldl (fun st x => dispatchState env st (.SetLinkFilter x)) s =
        { s with session_link_inception :=
            ts.foldl (fun _ x => x) s.session_link_inception } := by
  intro ts
  induction ts with
  | nil => intro s; rfl
  | cons x ts ih =>
    intro s
    exact ih { s with session_link_inception := x }

/-- C5: dispatching `SetLinkFilter`, once or any number of times and with
any text, changes only the link filter text: the selected link targets and
every other state field are left unchanged, and no failure is reported. -/
theorem c5_filter_non_destructive (env : Env) (s : State) (txt : String) :
    dispatchState env s (.SetLinkFilter txt) = { s with session_link_inception := txt }
    ∧ (reduce env s (.SetLinkFilter txt)).2 = []
    ∧ ∀ ts : List String,
        ts.foldl (fun st x => dispatchState env st (.SetLinkFilter x)) s =
          { s with session_link_inception :=
              ts.foldl (fun _ x => x) s.session_link_inception } :=
  ⟨rfl, rfl, fun ts => setLinkFilter_foldl env ts s⟩

/-- C6: `SelectLinks(toSelect, toDeselect)` yields selected link targets
equal to `(previous ∪ toSelect) \ toDeselect`; in particular any previously
selected id appearing in neither set (for example one hidden by the current
filter) remains selected. -/
theorem c6_select_links (env : Env) (s : State) (a b : Finset String) :
    (dispatchState env s (.SelectLinks a b)).session_selected_link
        = (s.session_selected_link ∪ a) \ b
    ∧ ∀ x : String, x ∈ s.session_selected_link → x ∉ a → x ∉ b →
        x ∈ (dispatchState env s (.SelectLinks a b)).session_selected_link := by
  refine ⟨rfl, ?_⟩
  intro x hx hxa hxb
  show x ∈ (s.session_selected_link ∪ a) \ b
  simp [Finset.mem_sdiff, Finset.mem_union, hx, hxb]

/-- C6 witness: a selected id hidden from both argument sets survives a
`SelectLinks` dispatch. -/
theorem c6_witness :
    "X" ∈ (dispatchState env0 { state0 with session_selected_link := {"X"} }
        (.SelectLinks {"Y"} {"Z"})).session_selected_link :=
  (c6_select_links env0 { state0 with session_selected_link := {"X"} } {"Y"} {"Z"}).2
    "X" (by decide) (by decide) (by decide)

/-- C8: after the store replaces its state with the reducer's result, every
registered observer is invoked exactly once, in registration order, each
reading the same final post-dispatch state; with observers registered in
order A, B, C the notification outputs are exactly
`[A final, B final, C final]`. -/
theorem c8_observer_order {α : Type} (env : Env) (st : Store α) (a : Action)
    (s0 : State) (A B C : State → α) :
    (st.dispatch env a).1.state = (reduce env st.state a).1
    ∧ (st.dispatch env a).2.2
        = st.observers.map (fun o => o ((st.dispatch env a).1.state))
    ∧ (st.dispatch env a).2.2.length = st.observers.length
    ∧ (st.dispatch env a).2.1 = (reduce env st.state a).2
    ∧ ((((Store.mk s0 []).add_observer A).add_observer B).add_observer C).dispatch env a
        = (Store.mk (reduce env s0 a).1 [A, B, C], (reduce env s0 a).2,
            [A (reduce env s0 a).1, B (reduce env s0 a).1, C (reduce env s0 a).1]) := by
  refine ⟨rfl, rfl, ?_, rfl, rfl⟩
  simp [Store.dispatch]

/-- C2: in every state reachable by dispatch from the seed state, the
principal selected item is the head of the selected-item sequence: absent
when the sequence is empty, a member (the first id) when non-empty; and
`SelectItems` sets the principal to the first dispatched id and resets the
selected link targets to empty. -/
theorem c2_selection_consistency (s : State) (h : Reachable s) :
    (s.session_selected_item = [] → s.session_selected_item_principal = none)
    ∧ (∀ p, s.session_selected_item_principal = some p → p ∈ s.session_selected_item)
    ∧ (s.session_selected_item ≠ [] →
        s.session_selected_item_principal = s.session_selected_item.head?)
    ∧ ∀ (env : Env) (ids : List String),
        (dispatchState env s (.SelectItems ids)).session_selected_item_principal = ids.head?
        ∧ (dispatchState env s (.SelectItems ids)).session_selected_link = ∅ := by
  have hi := (reachable_invar h).1
  refine ⟨?_, ?_, ?_, ?_⟩
  · intro he; rw [hi, he]; rfl
  · intro p hp
    rw [hi] at hp
    cases hl : s.session_selected_item with
    | nil => rw [hl] at hp; cases hp
    | cons x xs =>
      rw [hl] at hp
      simp only [List.head?_cons, Option.some.injEq] at hp
      rw [← hp]
      exact List.mem_cons_self x xs
  · intro _; exact hi
  · intro env ids; exact ⟨rfl, rfl⟩

/-- C2 witness: at the reachable seed state the principal is absent, and a
concrete `SelectItems` dispatch makes it the first dispatched id. -/
theorem c2_witness :
    State.seed.session_selected_item_principal = none
    ∧ (dispatchState env0 State.seed (.SelectItems ["A", "B"])).session_selected_item_principal
        = some "A" := by
  refine ⟨(c2_selection_consistency State.seed Reachable.seed).1 rfl, ?_⟩
  rw [((c2_selection_consistency State.seed Reachable.seed).2.2.2 env0 ["A", "B"]).1]
  rfl

/-- A succeeding field edit sets the pending flag. -/
theorem editItem_ok_pending {s : State} {uid : String} {f : Item → Item}
    (h : (editItem s uid f).2 = []) :
    (editItem s uid f).1.session_pending_change = true := by
  cases hpt : s.project_tree with
  | none => simp [editItem, hpt] at h
  | some t =>
    cases hfi : t.findItem uid with
    | none => simp [editItem, hpt, hfi] at h
    | some it => simp [editItem, hpt, hfi]

/-- C3: the pending-change flag tracks unsaved edits exactly — false after
a successful `LoadProject` and after any `CloseProject`; true after any
field-edit or link-edit action that succeeds; false after a `SaveProject`
(from a reachable state) in which zero per-item failures occurred, and left
unchanged (hence still true) when some per-item save failed. -/
theorem c3_pending_change_accuracy (env : Env) (s : State) (a : Action) :
    ((reduce env s .LoadProject).2 = [] →
        (reduce env s .LoadProject).1.session_pending_change = false)
    ∧ (reduce env s .CloseProject).1.session_pending_change = false
    ∧ (a.isEdit = true → (reduce env s a).2 = [] →
        (reduce env s a).1.session_pending_change = true)
    ∧ (Reachable s → (reduce env s .SaveProject).2 = [] →
        (reduce env s .SaveProject).1.session_pending_change = false)
    ∧ ((reduce env s .SaveProject).2 ≠ [] →
        (reduce env s .SaveProject).1.session_pending_change = s.session_pending_change) := by
  refine ⟨?_, rfl, ?_, ?_, ?_⟩
  · intro he
    cases hpp : s.project_path with
    | none => simp [reduce, hpp] at he
    | some p =>
      cases hl : env.load p with
      | none => simp [reduce, hpp, hl] at he
      | some t => simp [reduce, hpp, hl]
  · intro hedit hok
    cases a with
    | SetItemText uid txt => exact editItem_ok_pending hok
    | SetItemReference uid r => exact editItem_ok_pending hok
    | SetItemFlag uid fl v => exact editItem_ok_pending hok
    | SetExtendedAttributeValue uid n v => exact editItem_ok_pending hok
    | AddLink uid ttext =>
      cases hp : env.parseTarget ttext with
      | none => simp [reduce, hp] at hok
      | some tgt =>
        cases hpt : s.project_tree with
        | none => simp [reduce, hp, hpt] at hok
        | some t =>
          cases hfi : t.findItem uid with
          | none => simp [reduce, hp, hpt, hfi] at hok
          | some it =>
            cases hft : t.findItem tgt with
            | none => simp [reduce, hp, hpt, hfi, hft] at hok
            | some it2 => simp [reduce, hp, hpt, hfi, hft]
    | RemoveLinks uid tgts =>
      cases hpt : s.project_tree with
      | none => simp [reduce, hpt] at hok
      | some t =>
        cases hfi : t.findItem uid with
        | none => simp [reduce, hpt, hfi] at hok
        | some it => simp [reduce, hpt, hfi]
    | SetWorkingDirectory p => simp [Action.isEdit] at hedit
    | SetProjectPath p => simp [Action.isEdit] at hedit
    | LoadProject => simp [Action.isEdit] at hedit
    | SaveProject => simp [Action.isEdit] at hedit
    | CloseProject => simp [Action.isEdit] at hedit
    | SelectDocument id => simp [Action.isEdit] at hedit
    | SelectItems ids => simp [Action.isEdit] at hedit
    | SelectLinks a b => simp [Action.isEdit] at hedit
    | SetLinkFilter txt => simp [Action.isEdit] at hedit
    | SetExtendedAttributeName n => simp [Action.isEdit] at hedit
  · intro hr hok
    cases hpt : s.project_tree with
    | none =>
      simp only [reduce, hpt]
      exact (reachable_invar hr).2 hpt
    | some t =>
      simp only [reduce, hpt] at hok ⊢
      rw [if_pos hok]
  · intro hne
    cases hpt : s.project_tree with
    | none => simp [reduce, hpt] at hne
    | some t =>
      simp only [reduce, hpt] at hne ⊢
      rw [if_neg hne]

/-- C3 witness: a concrete succeeding `SetItemText` sets the pending flag,
and `SaveProject` from the reachable seed state reports no failure and
leaves the flag false. -/
theorem c3_witness :
    (reduce env0 state0 (.SetItemText "A" "new")).1.session_pending_change = true
    ∧ (reduce env0 State.seed .SaveProject).1.session_pending_change = false :=
  ⟨(c3_pending_change_accuracy env0 state0 (.SetItemText "A" "new")).2.2.1 rfl (by decide),
   (c3_pending_change_accuracy env0 State.seed .SaveProject).2.2.2.1 Reachable.seed (by decide)⟩

/-- Dispatching the same `AddLink` twice produces, in full, the same state
as dispatching it once (adding an existing link is a no-op). -/
theorem addLink_idem (env : Env) (s : State) (uid ttext : String) :
    dispatchState env (dispatchState env s (.AddLink uid ttext)) (.AddLink uid ttext)
      = dispatchState env s (.AddLink uid ttext) := by
  cases hp : env.parseTarget ttext with
  | none => simp [dispatchState, reduce, hp]
  | some tgt =>
    cases hpt : s.project_tree with
    | none => simp [dispatchState, reduce, hp, hpt]
    | some t =>
      cases hfi : t.findItem uid with
      | none => simp [dispatchState, reduce, hp, hpt, hfi]
      | some it =>
        cases hft : t.findItem tgt with
        | none => simp [dispatchState, reduce, hp, hpt, hfi, hft]
        | some it2 =>
          have hpres : ∀ x : Item,
              (({ x with links := insert tgt x.links } : Item)).uid = x.uid :=
            fun x => rfl
          have h1 : (t.updItem uid (fun x => { x with links := insert tgt x.links })).findItem uid
              = some (condUpd uid (fun x => { x with links := insert tgt x.links }) it) := by
            rw [findItem_updItem hpres, hfi, Option.map_some']
          have h2 : (t.updItem uid (fun x => { x with links := insert tgt x.links })).findItem tgt
              = some (condUpd uid (fun x => { x with links := insert tgt x.links }) it2) := by
            rw [findItem_updItem hpres, hft, Option.map_some']
          have h3 : (t.updItem uid (fun x => { x with links := insert tgt x.links })).updItem uid
                (fun x => { x with links := insert tgt x.links })
              = t.updItem uid (fun x => { x with links := insert tgt x.links }) := by
            rw [updItem_updItem hpres]
            congr 1
            funext x
            simp [Finset.insert_idem]
          simp [dispatchState, reduce, hp, hpt, hfi, hft, h1, h2, h3]

/-- C7: link edits are idempotent — dispatching `AddLink(i, t)` twice
yields the same link set for `i` as dispatching it once, and dispatching
`RemoveLinks(i, {t})` when `t` is not in `i`'s link set leaves the link set
unchanged. -/
theorem c7_link_edit_idempotence (env : Env) (s : State) (uid ttext tgt : String) :
    getLinks (dispatchState env (dispatchState env s (.AddLink uid ttext))
          (.AddLink uid ttext)) uid
      = getLinks (dispatchState env s (.AddLink uid ttext)) uid
    ∧ ((∃ t it, s.project_tree = some t ∧ t.findItem uid = some it ∧ tgt ∉ it.links) →
        getLinks (dispatchState env s (.RemoveLinks uid {tgt})) uid = getLinks s uid) := by
  constructor
  · rw [addLink_idem]
  · rintro ⟨t, it, hpt, hfi, hmem⟩
    have hpres : ∀ x : Item,
        (({ x with links := x.links \ {tgt} } : Item)).uid = x.uid :=
      fun x => rfl
    have huid : it.uid == uid := findItem_uid hfi
    simp only [dispatchState, reduce, hpt, hfi, getLinks]
    rw [findItem_updItem hpres, hfi, Option.map_some', Option.map_some', Option.map_some']
    unfold condUpd
    rw [if_pos huid]
    simp only []
    rw [Finset.sdiff_singleton_eq_erase, Finset.erase_eq_of_not_mem hmem]

/-- C7 witness: removing a link target that is not in the (resolvable)
item's link set leaves the link set unchanged. -/
theorem c7_witness :
    getLinks (dispatchState env0 state0 (.RemoveLinks "A" {"C"})) "A"
      = getLinks state0 "A" :=
  (c7_link_edit_idempotence env0 state0 "A" "B" "C").2
    ⟨tree0, itemA, rfl, by decide, by decide⟩

/-- C9 counterexample: the `doChangeActive` callback of
doorstop/gui/main.py, on a concrete state with a loaded tree and principal
item "A", dispatches `Action_ChangeItemActive` carrying the resolved item
object itself — a resolved item reference crosses the dispatch boundary
inside the action, contradicting the claim that every field-edit action
carries only the item's identifier. -/
theorem c9_counterexample :
    doChangeActive state0 true = some (.changeItemActive itemA true)
    ∧ carriedItem (GuiEditAction.changeItemActive itemA true) = some itemA :=
  ⟨rfl, rfl⟩

/-- C9 (amended): the text, reference and extended-value edit callbacks
carry only the principal item's identifier into the action they dispatch,
but the four flag-edit callbacks (`doChangeActive` / `Derived` /
`Normative` / `Heading`) resolve the principal identifier in the project
tree at callback time and carry the resolved item object inside the
dispatched action. -/
theorem c9_edit_action_payloads (s : State) (txt : String) (v : Bool) :
    (∀ a, text_item_focusout s txt = some a →
        carriedItem a = none ∧ a = .changeItemText (s.session_selected_item_principal.getD "") txt)
    ∧ (∀ a, text_item_reference_focusout s txt = some a → carriedItem a = none)
    ∧ (∀ a, text_extendedvalue_focusout s txt = some a → carriedItem a = none)
    ∧ (∀ a, doChangeActive s v = some a → ∃ t it uid,
          s.project_tree = some t ∧ s.session_selected_item_principal = some uid
          ∧ t.findItem uid = some it ∧ a = .changeItemActive it v ∧ carriedItem a = some it)
    ∧ (∀ a, doChangeDerived s v = some a → ∃ t it uid,
          s.project_tree = some t ∧ s.session_selected_item_principal = some uid
          ∧ t.findItem uid = some it ∧ a = .changeItemDerived it v ∧ carriedItem a = some it)
    ∧ (∀ a, doChangeNormative s v = some a → ∃ t it uid,
          s.project_tree = some t ∧ s.session_selected_item_principal = some uid
          ∧ t.findItem uid = some it ∧ a = .changeItemNormative it v ∧ carriedItem a = some it)
    ∧ (∀ a, doChangeHeading s v = some a → ∃ t it uid,
          s.project_tree = some t ∧ s.session_selected_item_principal = some uid
          ∧ t.findItem uid = some it ∧ a = .changeItemHeading it v ∧ carriedItem a = some it) := by
  refine ⟨?_, ?_, ?_, ?_, ?_, ?_, ?_⟩
  · intro a ha
    cases hsp : s.session_selected_item_principal with
    | none => simp [text_item_focusout, hsp] at ha
    | some uid =>
      simp only [text_item_focusout, hsp, Option.some.injEq] at ha
      subst ha
      exact ⟨rfl, rfl⟩
  · intro a ha
    cases hsp : s.session_selected_item_principal with
    | none => simp [text_item_reference_focusout, hsp] at ha
    | some uid =>
      simp only [text_item_reference_focusout, hsp, Option.some.injEq] at ha
      subst ha
      rfl
  · intro a ha
    cases hsp : s.session_selected_item_principal with
    | none => simp [text_extendedvalue_focusout, hsp] at ha
    | some uid =>
      simp only [text_extendedvalue_focusout, hsp, Option.some.injEq] at ha
      subst ha
      rfl
  · intro a ha
    cases hpt : s.project_tree with
    | none => simp [doChangeActive, hpt] at ha
    | some t =>
      cases hsp : s.session_selected_item_principal with
      | none => simp [doChangeActive, hpt, hsp] at ha
      | some uid =>
        cases hfi : t.findItem uid with
        | none => simp [doChangeActive, hpt, hsp, hfi] at ha
        | some it =>
          simp only [doChangeActive, hpt, hsp, hfi, Option.some.injEq] at ha
          subst ha
          exact ⟨t, it, uid, rfl, rfl, hfi, rfl, rfl⟩
  · intro a ha
    cases hpt : s.project_tree with
    | none => simp [doChangeDerived, hpt] at ha
    | some t =>
      cases hsp : s.session_selected_item_principal with
      | none => simp [doChangeDerived, hpt, hsp] at ha
      | some uid =>
        cases hfi : t.findItem uid with
        | none => simp [doChangeDerived, hpt, hsp, hfi] at ha
        | some it =>
          simp only [doChangeDerived, hpt, hsp, hfi, Option.some.injEq] at ha
          subst ha
          exact ⟨t, it, uid, rfl, rfl, hfi, rfl, rfl⟩
  · intro a ha
    cases hpt : s.project_tree with
    | none => simp [doChangeNormative, hpt] at ha
    | some t =>
      cases hsp : s.session_selected_item_principal with
      | none => simp [doChangeNormative, hpt, hsp] at ha
      | some uid =>
        cases hfi : t.findItem uid with
        | none => simp [doChangeNormative, hpt, hsp, hfi] at ha
        | some it =>
          simp only [doChangeNormative, hpt, hsp, hfi, Option.some.injEq] at ha
          subst ha
          exact ⟨t, it, uid, rfl, rfl, hfi, rfl, rfl⟩
  · intro a ha
    cases hpt : s.project_tree with
    | none => simp [doChangeHeading, hpt] at ha
    | some t =>
      cases hsp : s.session_selected_item_principal with
      | none => simp [doChangeHeading, hpt, hsp] at ha
      | some uid =>
        cases hfi : t.findItem uid with
        | none => simp [doChangeHeading, hpt, hsp, hfi] at ha
        | some it =>
          simp only [doChangeHeading, hpt, hsp, hfi, Option.some.injEq] at ha
          subst ha
          exact ⟨t, it, uid, rfl, rfl, hfi, rfl, rfl⟩

/-- C9 witness: the amended claim instantiated at a concrete dispatching
state — `doChangeActive` on `state0` carries the item resolved from the
tree. -/
theorem c9_witness :
    ∃ t it uid, state0.project_tree = some t
      ∧ state0.session_selected_item_principal = some uid
      ∧ t.findItem uid = some it
      ∧ GuiEditAction.changeItemActive itemA true = .changeItemActive it true
      ∧ carriedItem (GuiEditAction.changeItemActive itemA true) = some it :=
  (c9_edit_action_payloads state0 "x" true).2.2.2.1
    (GuiEditAction.changeItemActive itemA true) rfl

/-- C10: whenever the document-outline refresh observer of
doorstop/gui/main.py runs on a state whose selected-item sequence is empty
while the displayed document's outline has at least one item, the
"select the first item" branch hits its unconditional `assert False, uid`
and the observer raises `AssertionError` instead of completing. -/
theorem c10_outline_assert (s : State) (t : Tree) (d : Document)
    (ht : s.project_tree = some t)
    (hd : t.findDocument s.session_selected_document = some d)
    (hne : d.items ≠ []) (hsel : s.session_selected_item = []) :
    ∃ uid, refresh_document_outline s = .error (.assertionError uid) := by
  cases hi : d.items with
  | nil => exact absurd hi hne
  | cons x xs =>
    refine ⟨x.uid, ?_⟩
    simp [refresh_document_outline, ht, hd, hsel, hi]

/-- C10 witness: a concrete state with a loaded non-empty document and an
empty item selection makes the outline observer fail with
`AssertionError`. -/
theorem c10_witness :
    ∃ uid, refresh_document_outline
        { state0 with session_selected_item := [], session_selected_item_principal := none }
      = .error (.assertionError uid) :=
  c10_outline_assert
    { state0 with session_selected_item := [], session_selected_item_principal := none }
    tree0 doc0 rfl (by decide) (by decide) rfl

end Doorstop
